import Mathlib

/-!
Verification development for the ai-proxy server (`server.js`).

The definitions below are a shallow embedding of the parts of `server.js`
exercised by the stated properties: the request classifier (lines 168-177),
the raw-body capture and forwarding (lines 94-99, 165-167, 235-236), the
telemetry insertion and client-response behaviour of `proxyHandler`
(lines 206-233), the SQLite stats store and its prepared queries
(lines 41-84), and the `/stats` and `/stats/export` endpoints
(lines 258-305).  Timestamp rendering models ECMAScript
`Date.prototype.toISOString` via the ECMAScript-style year/month walk.
JavaScript numbers are modelled as `Nat`/`Int` (all quantities involved are
non-negative integers below 2^53, where double arithmetic is exact).
-/

namespace AiProxy

/-! ## Gregorian calendar (model of ECMAScript time decomposition) -/

/-- Gregorian leap-year rule (ECMAScript `InLeapYear`). -/
def isLeap (y : Nat) : Bool := (y % 4 == 0 && y % 100 != 0) || y % 400 == 0

/-- ECMAScript `DaysInYear`. -/
def daysInYear (y : Nat) : Nat := if isLeap y then 366 else 365

/-- Walk years upward from `y` consuming `days`, returning the year and the
0-based day-of-year.  `fuel` bounds the recursion; any `fuel ≥ days` is enough. -/
def yearFromDays (fuel : Nat) (y days : Nat) : Nat × Nat :=
  match fuel with
  | 0 => (y, days)
  | fuel + 1 =>
    if days < daysInYear y then (y, days)
    else yearFromDays fuel (y + 1) (days - daysInYear y)

/-- Total days in the `n` consecutive years starting at year `y`. -/
def yearSpanDays (y : Nat) : Nat → Nat
  | 0 => 0
  | n + 1 => daysInYear y + yearSpanDays (y + 1) n

/-- Month lengths, January first. -/
def monthLengths (leap : Bool) : List Nat :=
  [31, if leap then 29 else 28, 31, 30, 31, 30, 31, 31, 30, 31, 30, 31]

/-- Walk the month-length list consuming the 0-based day-of-year `r`, returning
the 1-based month and 1-based day of month (ECMAScript `MonthFromTime` /
`DateFromTime`). -/
def monthFromDoy : List Nat → Nat → Nat × Nat
  | [], r => (1, r + 1)
  | len :: rest, r =>
    if r < len then (1, r + 1)
    else ((monthFromDoy rest (r - len)).1 + 1, (monthFromDoy rest (r - len)).2)

/-- Year, month, day from a day count since 1970-01-01. -/
def civilFromDays (days : Nat) : Nat × Nat × Nat :=
  ((yearFromDays days 1970 days).1,
   (monthFromDoy (monthLengths (isLeap (yearFromDays days 1970 days).1)) (yearFromDays days 1970 days).2).1,
   (monthFromDoy (monthLengths (isLeap (yearFromDays days 1970 days).1)) (yearFromDays days 1970 days).2).2)

/-- Day count since 1970-01-01 from year, month (1-based), day (1-based). -/
def daysFromCivil (y m d : Nat) : Nat :=
  yearSpanDays 1970 (y - 1970) + ((monthLengths (isLeap y)).take (m - 1)).sum + (d - 1)

/-! ## Decimal digits -/

/-- Numeric value of a decimal digit character. -/
def charDigit (c : Char) : Nat := c.toNat - 48

/-- Read a big-endian list of decimal digit characters as a number. -/
def readNum (l : List Char) : Nat := l.foldl (fun a c => 10 * a + charDigit c) 0

/-- Fixed-width decimal rendering (big-endian, zero padded, modulo `10^w`). -/
def padChars : Nat → Nat → List Char
  | 0, _ => []
  | w + 1, n => padChars w (n / 10) ++ [Nat.digitChar (n % 10)]

/-- Unpadded decimal rendering, fuel-bounded; any `fuel ≥ n` is enough.
Models the decimal rendering a JavaScript template literal applies to an
integer-valued number. -/
def natCharsF : Nat → Nat → List Char
  | 0, n => [Nat.digitChar (n % 10)]
  | fuel + 1, n =>
    if n < 10 then [Nat.digitChar n]
    else natCharsF fuel (n / 10) ++ [Nat.digitChar (n % 10)]

/-- Unpadded decimal rendering of a natural number. -/
def natChars (n : Nat) : List Char := natCharsF n n

/-! ## ISO-8601 timestamp rendering (model of `Date.prototype.toISOString`) -/

/-- Characters of `new Date(ts).toISOString()` for timestamps from 1970
up to year 9999 (format `YYYY-MM-DDTHH:MM:SS.mmmZ`). -/
def isoChars (ts : Nat) : List Char :=
  padChars 4 (civilFromDays (ts / 86400000)).1 ++
    '-' :: (padChars 2 (civilFromDays (ts / 86400000)).2.1 ++
    '-' :: (padChars 2 (civilFromDays (ts / 86400000)).2.2 ++
    'T' :: (padChars 2 (ts / 3600000 % 24) ++
    ':' :: (padChars 2 (ts / 60000 % 60) ++
    ':' :: (padChars 2 (ts / 1000 % 60) ++
    '.' :: (padChars 3 (ts % 1000) ++ ['Z']))))))

/-- Millisecond timestamp read back from an ISO-8601 character list of the
exact shape `YYYY-MM-DDTHH:MM:SS.mmmZ`. -/
def parseIso (l : List Char) : Option Nat :=
  if l.length = 24 ∧
     (l.take 4).all Char.isDigit = true ∧ ((l.drop 5).take 2).all Char.isDigit = true ∧
     ((l.drop 8).take 2).all Char.isDigit = true ∧ ((l.drop 11).take 2).all Char.isDigit = true ∧
     ((l.drop 14).take 2).all Char.isDigit = true ∧ ((l.drop 17).take 2).all Char.isDigit = true ∧
     ((l.drop 20).take 3).all Char.isDigit = true ∧
     (l.drop 4).head? = some '-' ∧ (l.drop 7).head? = some '-' ∧
     (l.drop 10).head? = some 'T' ∧ (l.drop 13).head? = some ':' ∧
     (l.drop 16).head? = some ':' ∧ (l.drop 19).head? = some '.' ∧
     (l.drop 23).head? = some 'Z' then
    some (daysFromCivil (readNum (l.take 4)) (readNum ((l.drop 5).take 2))
            (readNum ((l.drop 8).take 2)) * 86400000
          + readNum ((l.drop 11).take 2) * 3600000
          + readNum ((l.drop 14).take 2) * 60000
          + readNum ((l.drop 17).take 2) * 1000
          + readNum ((l.drop 20).take 3))
  else none

/-! ## Query-string parsing (model of `URLSearchParams`, server.js lines 168-177) -/

/-- Split a character list at every occurrence of `sep`. -/
def splitOnChar (sep : Char) : List Char → List (List Char)
  | [] => [[]]
  | c :: rest =>
    if c = sep then [] :: splitOnChar sep rest
    else
      match splitOnChar sep rest with
      | [] => [[c]]
      | g :: gs => (c :: g) :: gs

/-- Join character lists with `sep` between them (inverse of `splitOnChar`). -/
def joinChar (sep : Char) : List (List Char) → List Char
  | [] => []
  | [g] => g
  | g :: gs => g ++ sep :: joinChar sep gs

/-- Value of a hexadecimal digit character, if any. -/
def hexDigitVal (c : Char) : Option Nat :=
  if '0' ≤ c ∧ c ≤ '9' then some (c.toNat - 48)
  else if 'A' ≤ c ∧ c ≤ 'F' then some (c.toNat - 55)
  else if 'a' ≤ c ∧ c ≤ 'f' then some (c.toNat - 87)
  else none

/-- `application/x-www-form-urlencoded` decoding of one component: `+` becomes
space, valid `%XX` escapes are decoded, invalid escapes are kept verbatim. -/
def pctDecodeF : Nat → List Char → List Char
  | 0, l => l
  | fuel + 1, l =>
    match l with
    | [] => []
    | '+' :: rest => ' ' :: pctDecodeF fuel rest
    | '%' :: a :: b :: rest =>
      match hexDigitVal a, hexDigitVal b with
      | some ha, some hb => Char.ofNat (16 * ha + hb) :: pctDecodeF fuel rest
      | _, _ => '%' :: pctDecodeF fuel (a :: b :: rest)
    | c :: rest => c :: pctDecodeF fuel rest

def pctDecode (l : List Char) : List Char := pctDecodeF l.length l

/-- ASCII lowercasing of a string (model of `String.prototype.toLowerCase`
on the ASCII values compared here). -/
def strToLower (s : String) : String := String.mk (s.data.map Char.toLower)

/-- Name/value pairs of a query string: split on `&` (empty sequences are
skipped), each pair split at the first `=`, both sides decoded. -/
def queryPairs (qs : List Char) : List (List Char × List Char) :=
  ((splitOnChar '&' qs).filter (fun p => p ≠ [])).map fun p =>
    match splitOnChar '=' p with
    | [] => ([], [])
    | k :: vs => (pctDecode k, pctDecode (joinChar '=' vs))

/-- First value bound to `name` in the query string (model of
`URLSearchParams.prototype.get`). -/
def queryGet (qs : List Char) (name : List Char) : Option (List Char) :=
  ((queryPairs qs).find? (fun p => p.1 = name)).map (fun p => p.2)

/-- The guarded assignment of server.js line 175: an already-lowercased value
is kept only when it is one of the three known tags, else the default. -/
def classifyValue (a : String) : String :=
  if a = "coder" ∨ a = "tester" ∨ a = "manager" then a else "manager"

/-- The request classifier of `proxyHandler` (server.js lines 168-177): default
`"manager"`; when the URL has a query string, its `agent` parameter is
lowercased and matched against the closed tag set. -/
def classifyAgent (urlStr : String) : String :=
  match splitOnChar '?' urlStr.data with
  | [] => "manager"
  | [_] => "manager"
  | _ :: rest =>
    classifyValue (strToLower (String.mk ((queryGet (joinChar '?' rest) "agent".data).getD [])))

/-! ## Raw body capture and forwarding (server.js lines 94-99, 165-167, 235-236) -/

/-- UTF-8 encoding of one code point. -/
def utf8EncodeChar (n : Nat) : List Nat :=
  if n < 128 then [n]
  else if n < 2048 then [192 + n / 64, 128 + n % 64]
  else if n < 65536 then [224 + n / 4096, 128 + n / 64 % 64, 128 + n % 64]
  else [240 + n / 262144, 128 + n / 4096 % 64, 128 + n / 64 % 64, 128 + n % 64]

def utf8BytesList : List Char → List Nat
  | [] => []
  | c :: rest => utf8EncodeChar c.toNat ++ utf8BytesList rest

/-- The UTF-8 bytes of a string; a valid inbound JSON body is the UTF-8
encoding of its text, so this models both the bytes received from the client
and the bytes Node writes for a string with the default encoding. -/
def utf8Bytes (s : String) : List Nat := utf8BytesList s.data

/-- The `verify` callback of `express.json` (lines 96-98):
`req.rawBody = buf && buf.length ? buf.toString(utf8) : empty`, where `buf`
holds the UTF-8 encoding of the text `s`. -/
def rawBodyOf (s : String) : String :=
  if (utf8Bytes s).length ≠ 0 then s else ""

/-- Line 165: `const body = typeof req.rawBody === string ? req.rawBody : empty`. -/
def bodyOf : Option String → String
  | some raw => raw
  | none => ""

/-- Line 166: `const inBytes = Buffer.byteLength(body, utf8)`. -/
def inBytesOf (body : String) : Nat := (utf8Bytes body).length

/-- Line 167: `const estTokens = Math.floor(inBytes / 4)`. -/
def estTokensOf (inBytes : Nat) : Nat := inBytes / 4

/-- Line 235: `if (body && body.length) upstreamReq.write(body)` — the byte
sequence written to the upstream connection. -/
def upstreamWritten (body : String) : List Nat :=
  if body = "" then [] else utf8Bytes body

/-! ## Proxy handler outcome model (server.js lines 206-233) -/

/-- One row as handed to `insertStat.run` (lines 214-220). -/
structure TelemetryRecord where
  ts : Nat
  agent : String
  in_bytes : Nat
  est_tokens : Nat
  out_bytes : Nat
  upstream_status : Nat
  duration_ms : Nat
deriving DecidableEq

/-- How one upstream call can end, as observable by the handlers of `proxyHandler`:
either a response whose relayed stream reaches its `end` event, a response
that is aborted before its stream ends, or a failure before any response. -/
inductive UpstreamOutcome where
  | completed (statusCode : Nat) (chunkSizes : List Nat)
  | abortedMidStream (statusCode : Nat) (chunkSizes : List Nat) (errMsg : String)
  | failedNoResponse (errMsg : String)
deriving DecidableEq

/-- The record built at lines 214-220, in the stream-end handler of the tee:
`upstream_status` is `upstreamRes.statusCode || 0`, `out_bytes` is the sum of
relayed chunk sizes. -/
def mkTelemetry (now : Nat) (agent : String) (inBytes durationMs statusCode : Nat)
    (chunkSizes : List Nat) : TelemetryRecord :=
  { ts := now, agent := agent, in_bytes := inBytes, est_tokens := estTokensOf inBytes,
    out_bytes := chunkSizes.sum,
    upstream_status := if statusCode = 0 then 0 else statusCode,
    duration_ms := durationMs }

/-- Telemetry records appended by `proxyHandler` for one request: the only
`insertStat.run` call sits in the stream-end handler of the tee (line 214), which
fires exactly when the relayed response stream completes; the `error` and
timeout paths (lines 225-233) contain no insert. -/
def proxyRecords (persist : Bool) (now : Nat) (agent : String) (inBytes durationMs : Nat) :
    UpstreamOutcome → List TelemetryRecord
  | .completed st chunks =>
    if persist then [mkTelemetry now agent inBytes durationMs st chunks] else []
  | .abortedMidStream _ _ _ => []
  | .failedNoResponse _ => []

/-- Client-visible response body shapes. -/
inductive RespBody where
  | stream (chunkSizes : List Nat)
  | jsonError (error detail : String)
deriving DecidableEq

/-- What the caller observes plus whether the error handler itself raised:
once response headers were relayed, `res.type` (Express `res.set` → Node
`setHeader`) throws ERR_HTTP_HEADERS_SENT, so the handler aborts before
`res.end`. -/
structure ClientResult where
  status : Nat
  body : RespBody
  handlerThrew : Bool
deriving DecidableEq

/-- Client-visible result of `proxyHandler` per upstream outcome:
on response, `res.writeHead(upstreamRes.statusCode || 502, ...)` (line 207)
mirrors the status; on `error` the handler (lines 229-233) sets 502 only when
`!res.headersSent`, then calls `res.type` followed by `res.end` with the
Bad Gateway error JSON.  When headers were already relayed, the `res.type`
call at line 232 throws ERR_HTTP_HEADERS_SENT, so `res.end` is never reached:
no error body is appended and the caller is left with the mirrored status and
the chunks relayed so far. -/
def proxyClientResult : UpstreamOutcome → ClientResult
  | .completed st chunks =>
    { status := if st = 0 then 502 else st, body := .stream chunks, handlerThrew := false }
  | .abortedMidStream st chunks _ =>
    { status := if st = 0 then 502 else st, body := .stream chunks, handlerThrew := true }
  | .failedNoResponse msg =>
    { status := 502, body := .jsonError "Bad Gateway" msg, handlerThrew := false }

/-- Message of the Error the timeout handler passes to `upstreamReq.destroy`
(line 226). -/
def upstreamTimeoutMsg (timeoutMs : Nat) : String :=
  "⏳ Upstream timeout after " ++ String.mk (natChars timeoutMs) ++ "ms"

/-- The timeout handler (lines 225-227): destroys the outbound request with
the timeout error; a timeout before any response therefore surfaces through
the `error` path as `failedNoResponse` with this message. -/
def upstreamTimeoutHandler (timeoutMs : Nat) : Bool × UpstreamOutcome :=
  (true, .failedNoResponse (upstreamTimeoutMsg timeoutMs))

/-! ## Stats store (server.js lines 41-84) -/

/-- One row of the `stats` table. -/
structure StatsRow where
  id : Nat
  ts : Nat
  agent : String
  in_bytes : Nat
  est_tokens : Nat
  out_bytes : Nat
  upstream_status : Nat
  duration_ms : Nat
deriving DecidableEq

/-- The `stats` table: rows in insertion order plus the AUTOINCREMENT counter. -/
structure StatsDb where
  rows : List StatsRow
  seq : Nat
deriving DecidableEq

/-- The stats row written for one telemetry record under a given id. -/
def rowOfTelemetry (newId : Nat) (t : TelemetryRecord) : StatsRow :=
  { id := newId, ts := t.ts, agent := t.agent, in_bytes := t.in_bytes,
    est_tokens := t.est_tokens, out_bytes := t.out_bytes,
    upstream_status := t.upstream_status, duration_ms := t.duration_ms }

/-- `insertStat.run` (lines 55-56): appends one row with the next
AUTOINCREMENT id. -/
def insertStat (db : StatsDb) (t : TelemetryRecord) : StatsDb :=
  { rows := db.rows ++ [rowOfTelemetry (db.seq + 1) t], seq := db.seq + 1 }

/-- Store invariant maintained by `insertStat`: ids are bounded by the counter
and strictly increasing along the list, so the insertion order is the
ascending-id order returned by `ORDER BY id ASC`. -/
def DbInv (db : StatsDb) : Prop :=
  (∀ r ∈ db.rows, r.id ≤ db.seq) ∧ db.rows.Pairwise (fun a b => a.id < b.id)

/-! ## Stats reporting (server.js lines 57-84, 258-305) -/

/-- Lines 261 / 281: `req.query.periodMinutes ? Number(...) : 0`. -/
def minsOf : Option Int → Int
  | some n => n
  | none => 0

/-- Lines 262 / 282: `req.query.agent ? String(req.query.agent).toLowerCase() : empty`. -/
def agentFilterOf : Option String → String
  | some v => if v = "" then "" else strToLower v
  | none => ""

/-- The `WHERE ts >= ?` window: applied only when `mins && mins > 0`
(lines 264-268 / 284-288), with `since = Date.now() - mins * 60 * 1000`. -/
def windowRows (rows : List StatsRow) (now mins : Int) : List StatsRow :=
  if 0 < mins then rows.filter (fun r => now - mins * 60 * 1000 ≤ (r.ts : Int)) else rows

/-- The `WHERE agent = ?` filter: applied only when the agent string is
non-empty (lines 266-268 / 286-288). -/
def agentRows (rows : List StatsRow) (agent : String) : List StatsRow :=
  if agent ≠ "" then rows.filter (fun r => r.agent = agent) else rows

/-- Row selection shared by the four summary and the four export prepared
statements: optional time window and optional agent equality filter; row
order (insertion = ascending id) is preserved. -/
def selectStatsRows (rows : List StatsRow) (now : Int) (pm : Option Int)
    (ap : Option String) : List StatsRow :=
  agentRows (windowRows rows now (minsOf pm)) (agentFilterOf ap)

/-- One `GROUP BY agent` result row of the summary queries (lines 57-80).
`avg_ms` models SQLite `AVG` exactly as a rational. -/
structure SummaryRow where
  agent : String
  requests : Nat
  sum_in : Nat
  sum_out : Nat
  avg_ms : Rat
deriving DecidableEq

/-- The summary group for agent `a` over `rows`: `COUNT(*)`, `SUM(in_bytes)`,
`SUM(out_bytes)`, `AVG(duration_ms)`; `none` when no row matches (SQL
`GROUP BY` emits no group for an absent key). -/
def summaryFor (rows : List StatsRow) (a : String) : Option SummaryRow :=
  let g := rows.filter (fun r => r.agent = a)
  if g.length = 0 then none
  else some { agent := a, requests := g.length,
              sum_in := (g.map (fun r => r.in_bytes)).sum,
              sum_out := (g.map (fun r => r.out_bytes)).sum,
              avg_ms := ((g.map (fun r => r.duration_ms)).sum : Rat) / (g.length : Rat) }

/-- The `/stats` summary for agent `a` after window and agent filtering. -/
def statsSummary (rows : List StatsRow) (now : Int) (pm : Option Int)
    (ap : Option String) (a : String) : Option SummaryRow :=
  summaryFor (selectStatsRows rows now pm ap) a

/-- The CSV header chunk written at line 295. -/
def csvHeader : String := "id,ts_iso,agent,in_bytes,est_tokens,out_bytes,upstream_status,duration_ms\n"

/-- Characters of one CSV data row (line 298):
`${r.id},${tsIso},${r.agent},${r.in_bytes},${r.est_tokens},${r.out_bytes},${r.upstream_status},${r.duration_ms}`. -/
def rowChars (r : StatsRow) : List Char :=
  natChars r.id ++ ',' :: (isoChars r.ts ++ ',' :: (r.agent.data ++
    ',' :: (natChars r.in_bytes ++ ',' :: (natChars r.est_tokens ++
    ',' :: (natChars r.out_bytes ++ ',' :: (natChars r.upstream_status ++
    ',' :: natChars r.duration_ms))))))

/-- One CSV data row as a string, without its trailing newline. -/
def renderRow (r : StatsRow) : String := String.mk (rowChars r)

/-- The sequence of `res.write` chunks of `/stats/export` (lines 295-299):
the header, then one row per selected record in stored (ascending id) order. -/
def exportChunks (rows : List StatsRow) (now : Int) (pm : Option Int)
    (ap : Option String) : List String :=
  csvHeader :: (selectStatsRows rows now pm ap).map (fun r => renderRow r ++ "\n")

/-- Parse one CSV field as a decimal number. -/
def parseNatField (l : List Char) : Option Nat :=
  if l ≠ [] ∧ l.all Char.isDigit = true then some (readNum l) else none

/-- Parse one exported CSV data row back into a `StatsRow`; the timestamp is
recovered from its ISO-8601 rendering to the millisecond. -/
def parseRow (s : String) : Option StatsRow :=
  match splitOnChar ',' s.data with
  | [idF, tsF, agF, inF, etF, outF, usF, durF] =>
    match parseNatField idF, parseIso tsF, parseNatField inF, parseNatField etF,
          parseNatField outF, parseNatField usF, parseNatField durF with
    | some i, some t, some ib, some et, some ob, some us, some dm =>
      some { id := i, ts := t, agent := String.mk agF, in_bytes := ib, est_tokens := et,
             out_bytes := ob, upstream_status := us, duration_ms := dm }
    | _, _, _, _, _, _, _ => none
  | _ => none

/-- Response bodies of the two reporting endpoints. -/
inductive EndpointBody where
  | jsonError (error : String)
  | summaryBody (periodMinutes : Int) (agent : String) (selected : List StatsRow)
  | csv (chunks : List String)
deriving DecidableEq

/-- `GET /stats` (lines 258-275): when the store is unavailable it replies
with the persistence-disabled JSON error body at the default status 200. -/
def statsEndpoint (dbAvailable : Bool) (rows : List StatsRow) (now : Int)
    (pm : Option Int) (ap : Option String) : Nat × EndpointBody :=
  if dbAvailable = false then (200, .jsonError "stats persistence disabled")
  else (200, .summaryBody (minsOf pm) (agentFilterOf ap) (selectStatsRows rows now pm ap))

/-- `GET /stats/export` (lines 278-305): when the store is unavailable it
replies with status 400 and the same persistence-disabled JSON error body. -/
def exportEndpoint (dbAvailable : Bool) (rows : List StatsRow) (now : Int)
    (pm : Option Int) (ap : Option String) : Nat × EndpointBody :=
  if dbAvailable = false then (400, .jsonError "stats persistence disabled")
  else (200, .csv (exportChunks rows now pm ap))


/-! ## Concrete fixtures used by witnesses -/

def sampleRowA : StatsRow :=
  { id := 1, ts := 90061123, agent := "coder", in_bytes := 100, est_tokens := 25,
    out_bytes := 40, upstream_status := 200, duration_ms := 10 }

def sampleRowB : StatsRow :=
  { id := 2, ts := 90061999, agent := "coder", in_bytes := 200, est_tokens := 50,
    out_bytes := 60, upstream_status := 200, duration_ms := 20 }

def sampleRowC : StatsRow :=
  { id := 3, ts := 90062000, agent := "coder", in_bytes := 300, est_tokens := 75,
    out_bytes := 80, upstream_status := 200, duration_ms := 30 }

def sampleRowM : StatsRow :=
  { id := 4, ts := 90062001, agent := "manager", in_bytes := 50, est_tokens := 12,
    out_bytes := 20, upstream_status := 200, duration_ms := 40 }

def sampleDb : StatsDb := { rows := [sampleRowA, sampleRowB], seq := 2 }

/-! ## Calendar, digit and ISO-8601 lemmas -/

theorem daysInYear_pos (y : Nat) : 0 < daysInYear y := by
  simp only [daysInYear]; split <;> omega

theorem yearFromDays_spec (fuel : Nat) : ∀ y days : Nat, days ≤ fuel →
    yearSpanDays y ((yearFromDays fuel y days).1 - y) + (yearFromDays fuel y days).2 = days ∧
    (yearFromDays fuel y days).2 < daysInYear (yearFromDays fuel y days).1 ∧
    y ≤ (yearFromDays fuel y days).1 := by
  induction fuel with
  | zero =>
    intro y days hd
    have : days = 0 := by omega
    subst this
    simp only [yearFromDays, yearSpanDays]
    exact ⟨by simp [yearSpanDays], daysInYear_pos y, Nat.le_refl y⟩
  | succ fuel ih =>
    intro y days hd
    simp only [yearFromDays]
    split
    · next h =>
      refine ⟨?_, h, Nat.le_refl y⟩
      simp [yearSpanDays]
    · next h =>
      have hpos := daysInYear_pos y
      have hd' : days - daysInYear y ≤ fuel := by
        have : 365 ≤ daysInYear y := by simp only [daysInYear]; split <;> omega
        omega
      obtain ⟨ih1, ih2, ih3⟩ := ih (y + 1) (days - daysInYear y) hd'
      refine ⟨?_, ih2, by omega⟩
      have heq : (yearFromDays fuel (y + 1) (days - daysInYear y)).1 - y
          = ((yearFromDays fuel (y + 1) (days - daysInYear y)).1 - (y + 1)) + 1 := by omega
      rw [heq, yearSpanDays]
      omega

theorem yearSpanDays_add (y m n : Nat) :
    yearSpanDays y (m + n) = yearSpanDays y m + yearSpanDays (y + m) n := by
  induction m generalizing y with
  | zero => simp [yearSpanDays]
  | succ k ih =>
    have h1 : k + 1 + n = (k + n) + 1 := by omega
    rw [h1, yearSpanDays, yearSpanDays, ih]
    have h2 : y + (k + 1) = y + 1 + k := by omega
    rw [h2]
    omega

set_option maxRecDepth 4000 in
theorem yearSpan_chunk : ∀ k : Nat, k < 20 → yearSpanDays (1970 + 400 * k) 400 = 146097 := by
  decide

set_option maxRecDepth 4000 in
theorem yearSpan_tail : yearSpanDays 9970 30 = 10957 := by decide

theorem yearSpan_mul (m : Nat) (h : m ≤ 20) : yearSpanDays 1970 (400 * m) = 146097 * m := by
  induction m with
  | zero => simp [yearSpanDays]
  | succ k ih =>
    have hk : 400 * (k + 1) = 400 * k + 400 := by omega
    rw [hk, yearSpanDays_add, ih (by omega), yearSpan_chunk k (by omega)]
    omega

/-- Number of days from 1970-01-01 to 10000-01-01. -/
theorem yearSpan_1970_10000 : yearSpanDays 1970 8030 = 2932897 := by
  have h : (8030 : Nat) = 400 * 20 + 30 := by omega
  rw [h, yearSpanDays_add, yearSpan_mul 20 (by omega)]
  have : (1970 + 400 * 20 : Nat) = 9970 := by omega
  rw [this, yearSpan_tail]

theorem monthLengths_sum (leap : Bool) : (monthLengths leap).sum = if leap then 366 else 365 := by
  cases leap <;> decide

theorem monthFromDoy_spec (L : List Nat) : ∀ r : Nat, r < L.sum →
    1 ≤ (monthFromDoy L r).1 ∧ (monthFromDoy L r).1 ≤ L.length ∧
    (L.take ((monthFromDoy L r).1 - 1)).sum + ((monthFromDoy L r).2 - 1) = r ∧
    1 ≤ (monthFromDoy L r).2 ∧
    ∀ b : Nat, (∀ x ∈ L, x ≤ b) → (monthFromDoy L r).2 ≤ b := by
  induction L with
  | nil => intro r hr; simp at hr
  | cons len rest ih =>
    intro r hr
    simp only [monthFromDoy]
    split
    · next h =>
      refine ⟨by omega, by simp, by simp, by omega, ?_⟩
      intro b hb
      have : len ≤ b := hb len (by simp)
      simp only []
      omega
    · next h =>
      have hr' : r - len < rest.sum := by
        simp only [List.sum_cons] at hr; omega
      obtain ⟨i1, i2, i3, i4, i5⟩ := ih (r - len) hr'
      refine ⟨by simp, ?_, ?_, by simpa using i4, ?_⟩
      · simpa using i2
      · obtain ⟨k, hk⟩ : ∃ k, (monthFromDoy rest (r - len)).1 = k + 1 :=
          ⟨(monthFromDoy rest (r - len)).1 - 1, by omega⟩
        simp only [hk, Nat.add_sub_cancel, List.take_succ_cons, List.sum_cons]
        rw [hk] at i3
        simp only [Nat.add_sub_cancel] at i3
        omega
      · intro b hb
        simpa using i5 b (fun x hx => hb x (by simp [hx]))

theorem monthLengths_sum_eq (y : Nat) : (monthLengths (isLeap y)).sum = daysInYear y := by
  rw [monthLengths_sum, daysInYear]

theorem civilFromDays_spec (days : Nat) :
    daysFromCivil (civilFromDays days).1 (civilFromDays days).2.1 (civilFromDays days).2.2 = days ∧
    1970 ≤ (civilFromDays days).1 ∧
    1 ≤ (civilFromDays days).2.1 ∧ (civilFromDays days).2.1 ≤ 12 ∧
    1 ≤ (civilFromDays days).2.2 ∧ (civilFromDays days).2.2 ≤ 31 := by
  obtain ⟨y1, y2, y3⟩ := yearFromDays_spec days 1970 days (Nat.le_refl days)
  have hdoy : (yearFromDays days 1970 days).2
      < (monthLengths (isLeap (yearFromDays days 1970 days).1)).sum := by
    rw [monthLengths_sum_eq]; exact y2
  obtain ⟨m1, m2, m3, m4, m5⟩ :=
    monthFromDoy_spec (monthLengths (isLeap (yearFromDays days 1970 days).1))
      (yearFromDays days 1970 days).2 hdoy
  have hlen : (monthLengths (isLeap (yearFromDays days 1970 days).1)).length = 12 := by
    simp [monthLengths]
  rw [hlen] at m2
  have hb : ∀ x ∈ monthLengths (isLeap (yearFromDays days 1970 days).1), x ≤ 31 := by
    intro x hx
    simp only [monthLengths, List.mem_cons, List.not_mem_nil, or_false] at hx
    rcases hx with h | h | h | h | h | h | h | h | h | h | h | h
    all_goals subst h
    all_goals first
      | omega
      | (split <;> omega)
  have hd31 := m5 31 hb
  simp only [civilFromDays, daysFromCivil]
  omega

/-- Year bound: any day count below 10000-01-01 yields a year ≤ 9999. -/
theorem civil_year_lt_10000 (days : Nat) (h : days < 2932897) :
    (civilFromDays days).1 ≤ 9999 := by
  obtain ⟨y1, _, y3⟩ := yearFromDays_spec days 1970 days (Nat.le_refl days)
  simp only [civilFromDays]
  by_contra hge
  have h10 : 10000 ≤ (yearFromDays days 1970 days).1 := by omega
  have hsplit : (yearFromDays days 1970 days).1 - 1970
      = 8030 + ((yearFromDays days 1970 days).1 - 10000) := by omega
  rw [hsplit, yearSpanDays_add, yearSpan_1970_10000] at y1
  omega

theorem charDigit_digitChar (d : Nat) (h : d < 10) : charDigit (Nat.digitChar d) = d := by
  interval_cases d <;> rfl

theorem isDigit_digitChar (d : Nat) (h : d < 10) : (Nat.digitChar d).isDigit = true := by
  interval_cases d <;> rfl

theorem readNum_append_one (l : List Char) (c : Char) :
    readNum (l ++ [c]) = 10 * readNum l + charDigit c := by
  simp [readNum, List.foldl_append]

theorem padChars_length (w n : Nat) : (padChars w n).length = w := by
  induction w generalizing n with
  | zero => rfl
  | succ k ih => simp [padChars, ih]

theorem padChars_all_digit (w n : Nat) : ∀ c ∈ padChars w n, c.isDigit = true := by
  induction w generalizing n with
  | zero => simp [padChars]
  | succ k ih =>
    intro c hc
    simp only [padChars, List.mem_append, List.mem_singleton] at hc
    rcases hc with h | h
    · exact ih (n / 10) c h
    · subst h; exact isDigit_digitChar _ (Nat.mod_lt _ (by omega))

theorem readNum_padChars (w n : Nat) : readNum (padChars w n) = n % 10 ^ w := by
  induction w generalizing n with
  | zero => simp [padChars, readNum, Nat.mod_one]
  | succ k ih =>
    rw [padChars, readNum_append_one, ih, charDigit_digitChar _ (Nat.mod_lt _ (by omega))]
    have h1 : 10 ^ (k + 1) = 10 * 10 ^ k := by ring
    rw [h1, Nat.mod_mul]
    omega

theorem take_pad (w n : Nat) (rest : List Char) :
    ((padChars w n) ++ rest).take w = padChars w n := by
  have h := List.take_left (padChars w n) rest
  rw [padChars_length] at h
  exact h

theorem drop_pad (w n : Nat) (c : Char) (rest : List Char) :
    ((padChars w n) ++ c :: rest).drop (w + 1) = rest := by
  have h : ((padChars w n) ++ c :: rest).drop (padChars w n).length = c :: rest :=
    List.drop_left _ _
  rw [padChars_length] at h
  have h2 : ((padChars w n) ++ c :: rest).drop (w + 1)
      = (((padChars w n) ++ c :: rest).drop w).drop 1 := by
    rw [List.drop_drop]
  rw [h2, h]
  rfl

theorem head_pad (w n : Nat) (c : Char) (rest : List Char) :
    (((padChars w n) ++ c :: rest).drop w).head? = some c := by
  have h : ((padChars w n) ++ c :: rest).drop (padChars w n).length = c :: rest :=
    List.drop_left _ _
  rw [padChars_length] at h
  rw [h]
  rfl

theorem isoChars_take_drop (ts : Nat) :
    (isoChars ts).length = 24 ∧
    (isoChars ts).take 4 = padChars 4 (civilFromDays (ts / 86400000)).1 ∧
    ((isoChars ts).drop 5).take 2 = padChars 2 (civilFromDays (ts / 86400000)).2.1 ∧
    ((isoChars ts).drop 8).take 2 = padChars 2 (civilFromDays (ts / 86400000)).2.2 ∧
    ((isoChars ts).drop 11).take 2 = padChars 2 (ts / 3600000 % 24) ∧
    ((isoChars ts).drop 14).take 2 = padChars 2 (ts / 60000 % 60) ∧
    ((isoChars ts).drop 17).take 2 = padChars 2 (ts / 1000 % 60) ∧
    ((isoChars ts).drop 20).take 3 = padChars 3 (ts % 1000) ∧
    ((isoChars ts).drop 4).head? = some '-' ∧ ((isoChars ts).drop 7).head? = some '-' ∧
    ((isoChars ts).drop 10).head? = some 'T' ∧ ((isoChars ts).drop 13).head? = some ':' ∧
    ((isoChars ts).drop 16).head? = some ':' ∧ ((isoChars ts).drop 19).head? = some '.' ∧
    ((isoChars ts).drop 23).head? = some 'Z' := by
  have d5 : (isoChars ts).drop 5 = padChars 2 (civilFromDays (ts / 86400000)).2.1 ++
      '-' :: (padChars 2 (civilFromDays (ts / 86400000)).2.2 ++
      'T' :: (padChars 2 (ts / 3600000 % 24) ++
      ':' :: (padChars 2 (ts / 60000 % 60) ++
      ':' :: (padChars 2 (ts / 1000 % 60) ++
      '.' :: (padChars 3 (ts % 1000) ++ ['Z']))))) := by
    have := drop_pad 4 (civilFromDays (ts / 86400000)).1 '-'
      (padChars 2 (civilFromDays (ts / 86400000)).2.1 ++
      '-' :: (padChars 2 (civilFromDays (ts / 86400000)).2.2 ++
      'T' :: (padChars 2 (ts / 3600000 % 24) ++
      ':' :: (padChars 2 (ts / 60000 % 60) ++
      ':' :: (padChars 2 (ts / 1000 % 60) ++
      '.' :: (padChars 3 (ts % 1000) ++ ['Z']))))))
    exact this
  have d8 : (isoChars ts).drop 8 = padChars 2 (civilFromDays (ts / 86400000)).2.2 ++
      'T' :: (padChars 2 (ts / 3600000 % 24) ++
      ':' :: (padChars 2 (ts / 60000 % 60) ++
      ':' :: (padChars 2 (ts / 1000 % 60) ++
      '.' :: (padChars 3 (ts % 1000) ++ ['Z'])))) := by
    have h := List.drop_drop 3 5 (isoChars ts)
    rw [show (3 + 5 : Nat) = 8 from rfl] at h
    rw [← h, d5]
    exact drop_pad 2 _ '-' _
  have d11 : (isoChars ts).drop 11 = padChars 2 (ts / 3600000 % 24) ++
      ':' :: (padChars 2 (ts / 60000 % 60) ++
      ':' :: (padChars 2 (ts / 1000 % 60) ++
      '.' :: (padChars 3 (ts % 1000) ++ ['Z']))) := by
    have h := List.drop_drop 3 8 (isoChars ts)
    rw [show (3 + 8 : Nat) = 11 from rfl] at h
    rw [← h, d8]
    exact drop_pad 2 _ 'T' _
  have d14 : (isoChars ts).drop 14 = padChars 2 (ts / 60000 % 60) ++
      ':' :: (padChars 2 (ts / 1000 % 60) ++
      '.' :: (padChars 3 (ts % 1000) ++ ['Z'])) := by
    have h := List.drop_drop 3 11 (isoChars ts)
    rw [show (3 + 11 : Nat) = 14 from rfl] at h
    rw [← h, d11]
    exact drop_pad 2 _ ':' _
  have d17 : (isoChars ts).drop 17 = padChars 2 (ts / 1000 % 60) ++
      '.' :: (padChars 3 (ts % 1000) ++ ['Z']) := by
    have h := List.drop_drop 3 14 (isoChars ts)
    rw [show (3 + 14 : Nat) = 17 from rfl] at h
    rw [← h, d14]
    exact drop_pad 2 _ ':' _
  have d20 : (isoChars ts).drop 20 = padChars 3 (ts % 1000) ++ ['Z'] := by
    have h := List.drop_drop 3 17 (isoChars ts)
    rw [show (3 + 17 : Nat) = 20 from rfl] at h
    rw [← h, d17]
    exact drop_pad 2 _ '.' _
  refine ⟨?_, ?_, ?_, ?_, ?_, ?_, ?_, ?_, ?_, ?_, ?_, ?_, ?_, ?_, ?_⟩
  · simp [isoChars, List.length_append, padChars_length]
  · exact take_pad 4 _ _
  · rw [d5]; exact take_pad 2 _ _
  · rw [d8]; exact take_pad 2 _ _
  · rw [d11]; exact take_pad 2 _ _
  · rw [d14]; exact take_pad 2 _ _
  · rw [d17]; exact take_pad 2 _ _
  · rw [d20]; exact take_pad 3 _ _
  · exact head_pad 4 _ '-' _
  · have hdd := List.drop_drop 2 5 (isoChars ts)
    rw [show (5 + 2 : Nat) = 7 from rfl] at hdd
    rw [← hdd, d5]
    exact head_pad 2 _ '-' _
  · have hdd := List.drop_drop 2 8 (isoChars ts)
    rw [show (8 + 2 : Nat) = 10 from rfl] at hdd
    rw [← hdd, d8]
    exact head_pad 2 _ 'T' _
  · have hdd := List.drop_drop 2 11 (isoChars ts)
    rw [show (11 + 2 : Nat) = 13 from rfl] at hdd
    rw [← hdd, d11]
    exact head_pad 2 _ ':' _
  · have hdd := List.drop_drop 2 14 (isoChars ts)
    rw [show (14 + 2 : Nat) = 16 from rfl] at hdd
    rw [← hdd, d14]
    exact head_pad 2 _ ':' _
  · have hdd := List.drop_drop 2 17 (isoChars ts)
    rw [show (17 + 2 : Nat) = 19 from rfl] at hdd
    rw [← hdd, d17]
    exact head_pad 2 _ '.' _
  · have hdd := List.drop_drop 3 20 (isoChars ts)
    rw [show (20 + 3 : Nat) = 23 from rfl] at hdd
    rw [← hdd, d20]
    exact head_pad 3 _ 'Z' _

/-- Parsing the rendered ISO string recovers the millisecond timestamp exactly,
for any timestamp before year 10000. -/
theorem parseIso_isoChars (ts : Nat) (h : ts < 253402300800000) :
    parseIso (isoChars ts) = some ts := by
  obtain ⟨hlen, t4, t5, t8, t11, t14, t17, t20, s4, s7, s10, s13, s16, s19, s23⟩ :=
    isoChars_take_drop ts
  obtain ⟨hciv, hy1970, hm1, hm12, hd1, hd31⟩ := civilFromDays_spec (ts / 86400000)
  have hdays : ts / 86400000 < 2932897 := by omega
  have hy9999 := civil_year_lt_10000 (ts / 86400000) hdays
  rw [parseIso]
  rw [if_pos]
  · rw [t4, t5, t8, t11, t14, t17, t20]
    rw [readNum_padChars, readNum_padChars, readNum_padChars, readNum_padChars,
        readNum_padChars, readNum_padChars, readNum_padChars]
    have ey : (civilFromDays (ts / 86400000)).1 % 10 ^ 4 = (civilFromDays (ts / 86400000)).1 :=
      Nat.mod_eq_of_lt (by omega)
    have em : (civilFromDays (ts / 86400000)).2.1 % 10 ^ 2 = (civilFromDays (ts / 86400000)).2.1 :=
      Nat.mod_eq_of_lt (by omega)
    have ed : (civilFromDays (ts / 86400000)).2.2 % 10 ^ 2 = (civilFromDays (ts / 86400000)).2.2 :=
      Nat.mod_eq_of_lt (by omega)
    have eh : ts / 3600000 % 24 % 10 ^ 2 = ts / 3600000 % 24 :=
      Nat.mod_eq_of_lt (by omega)
    have emi : ts / 60000 % 60 % 10 ^ 2 = ts / 60000 % 60 :=
      Nat.mod_eq_of_lt (by omega)
    have es : ts / 1000 % 60 % 10 ^ 2 = ts / 1000 % 60 :=
      Nat.mod_eq_of_lt (by omega)
    have ems : ts % 1000 % 10 ^ 3 = ts % 1000 :=
      Nat.mod_eq_of_lt (by omega)
    rw [ey, em, ed, eh, emi, es, ems, hciv]
    simp only [Option.some.injEq]
    omega
  · refine ⟨hlen, ?_, ?_, ?_, ?_, ?_, ?_, ?_, s4, s7, s10, s13, s16, s19, s23⟩
    · rw [t4]; rw [List.all_eq_true]; exact fun c hc => padChars_all_digit _ _ c hc
    · rw [t5]; rw [List.all_eq_true]; exact fun c hc => padChars_all_digit _ _ c hc
    · rw [t8]; rw [List.all_eq_true]; exact fun c hc => padChars_all_digit _ _ c hc
    · rw [t11]; rw [List.all_eq_true]; exact fun c hc => padChars_all_digit _ _ c hc
    · rw [t14]; rw [List.all_eq_true]; exact fun c hc => padChars_all_digit _ _ c hc
    · rw [t17]; rw [List.all_eq_true]; exact fun c hc => padChars_all_digit _ _ c hc
    · rw [t20]; rw [List.all_eq_true]; exact fun c hc => padChars_all_digit _ _ c hc

/-! ## Unpadded numerals -/

theorem natCharsF_spec (fuel : Nat) : ∀ n : Nat, n ≤ fuel →
    readNum (natCharsF fuel n) = n ∧ natCharsF fuel n ≠ [] ∧
    ∀ c ∈ natCharsF fuel n, c.isDigit = true := by
  induction fuel with
  | zero =>
    intro n hn
    have : n = 0 := by omega
    subst this
    refine ⟨rfl, by simp [natCharsF], ?_⟩
    intro c hc
    simp only [natCharsF, List.mem_singleton] at hc
    subst hc
    exact isDigit_digitChar _ (by omega)
  | succ fuel ih =>
    intro n hn
    simp only [natCharsF]
    split
    · next h =>
      refine ⟨?_, by simp, ?_⟩
      · show readNum [Nat.digitChar n] = n
        simp [readNum, charDigit_digitChar n h]
      · intro c hc
        simp only [List.mem_singleton] at hc
        subst hc
        exact isDigit_digitChar _ h
    · next h =>
      have hlt : n / 10 ≤ fuel := by omega
      obtain ⟨ih1, ih2, ih3⟩ := ih (n / 10) hlt
      refine ⟨?_, by simp, ?_⟩
      · rw [readNum_append_one, ih1, charDigit_digitChar _ (Nat.mod_lt _ (by omega))]
        omega
      · intro c hc
        simp only [List.mem_append, List.mem_singleton] at hc
        rcases hc with hc | hc
        · exact ih3 c hc
        · subst hc
          exact isDigit_digitChar _ (Nat.mod_lt _ (by omega))

theorem readNum_natChars (n : Nat) : readNum (natChars n) = n :=
  (natCharsF_spec n n (Nat.le_refl n)).1

theorem natChars_ne_nil (n : Nat) : natChars n ≠ [] :=
  (natCharsF_spec n n (Nat.le_refl n)).2.1

theorem natChars_all_digit (n : Nat) : ∀ c ∈ natChars n, c.isDigit = true :=
  (natCharsF_spec n n (Nat.le_refl n)).2.2

theorem isDigit_ne_comma (c : Char) (h : c.isDigit = true) : c ≠ ',' := by
  intro heq
  subst heq
  exact absurd h (by decide)

theorem parseNatField_natChars (n : Nat) : parseNatField (natChars n) = some n := by
  rw [parseNatField, if_pos, readNum_natChars]
  refine ⟨natChars_ne_nil n, ?_⟩
  rw [List.all_eq_true]
  exact natChars_all_digit n

/-! ## Splitting on a separator -/

theorem splitOnChar_ne_nil (sep : Char) (l : List Char) : splitOnChar sep l ≠ [] := by
  cases l with
  | nil => simp [splitOnChar]
  | cons c rest =>
    simp only [splitOnChar]
    split
    · simp
    · split
      · simp
      · simp

theorem splitOnChar_not_mem (sep : Char) (a : List Char) (h : sep ∉ a) :
    splitOnChar sep a = [a] := by
  induction a with
  | nil => rfl
  | cons c rest ih =>
    simp only [List.mem_cons, not_or] at h
    simp only [splitOnChar]
    rw [if_neg (fun hc => h.1 hc.symm), ih h.2]

theorem splitOnChar_append (sep : Char) (a b : List Char) (h : sep ∉ a) :
    splitOnChar sep (a ++ sep :: b) = a :: splitOnChar sep b := by
  induction a with
  | nil =>
    simp [splitOnChar]
  | cons c rest ih =>
    simp only [List.mem_cons, not_or] at h
    simp only [List.cons_append, splitOnChar, List.append_eq]
    rw [if_neg (fun hc => h.1 hc.symm)]
    rw [ih h.2]

theorem isoChars_no_comma (ts : Nat) : ∀ c ∈ isoChars ts, c ≠ ',' := by
  intro c hc
  simp only [isoChars, List.mem_append, List.mem_cons, List.mem_singleton,
    List.not_mem_nil, or_false] at hc
  rcases hc with h | h | h | h | h | h | h | h | h | h | h | h | h | h
  all_goals first
    | (exact isDigit_ne_comma c (padChars_all_digit _ _ c h))
    | (subst h; decide)

theorem natChars_no_comma (n : Nat) : ',' ∉ natChars n := by
  intro hmem
  exact isDigit_ne_comma ',' (natChars_all_digit n ',' hmem) rfl

theorem splitOnChar_rowChars (r : StatsRow) (hag : ',' ∉ r.agent.data) :
    splitOnChar ',' (rowChars r) =
      [natChars r.id, isoChars r.ts, r.agent.data, natChars r.in_bytes,
       natChars r.est_tokens, natChars r.out_bytes, natChars r.upstream_status,
       natChars r.duration_ms] := by
  have hiso : ',' ∉ isoChars r.ts := fun hmem => isoChars_no_comma r.ts ',' hmem rfl
  rw [rowChars]
  rw [splitOnChar_append ',' _ _ (natChars_no_comma r.id)]
  rw [splitOnChar_append ',' _ _ hiso]
  rw [splitOnChar_append ',' _ _ hag]
  rw [splitOnChar_append ',' _ _ (natChars_no_comma r.in_bytes)]
  rw [splitOnChar_append ',' _ _ (natChars_no_comma r.est_tokens)]
  rw [splitOnChar_append ',' _ _ (natChars_no_comma r.out_bytes)]
  rw [splitOnChar_append ',' _ _ (natChars_no_comma r.upstream_status)]
  rw [splitOnChar_not_mem ',' _ (natChars_no_comma r.duration_ms)]

/-- Full CSV row round-trip: parsing an exported row recovers every field of
the record, the timestamp to the millisecond. -/
theorem parseRow_renderRow (r : StatsRow) (hts : r.ts < 253402300800000)
    (hag : ',' ∉ r.agent.data) : parseRow (renderRow r) = some r := by
  have hsplit := splitOnChar_rowChars r hag
  have hidp := parseNatField_natChars r.id
  have hinp := parseNatField_natChars r.in_bytes
  have hetp := parseNatField_natChars r.est_tokens
  have houtp := parseNatField_natChars r.out_bytes
  have husp := parseNatField_natChars r.upstream_status
  have hdurp := parseNatField_natChars r.duration_ms
  have hisop := parseIso_isoChars r.ts hts
  show parseRow (String.mk (rowChars r)) = some r
  rw [parseRow]
  rw [show (String.mk (rowChars r)).data = rowChars r from rfl, hsplit]
  dsimp only
  rw [hidp, hisop, hinp, hetp, houtp, husp, hdurp]

/-! ## Store and selection lemmas -/

theorem windowRows_sublist (rows : List StatsRow) (now mins : Int) :
    (windowRows rows now mins).Sublist rows := by
  rw [windowRows]
  split
  · exact List.filter_sublist rows
  · exact List.Sublist.refl rows

theorem agentRows_sublist (rows : List StatsRow) (agent : String) :
    (agentRows rows agent).Sublist rows := by
  rw [agentRows]
  split
  · exact List.filter_sublist rows
  · exact List.Sublist.refl rows

theorem selectStatsRows_sublist (rows : List StatsRow) (now : Int) (pm : Option Int)
    (ap : Option String) : (selectStatsRows rows now pm ap).Sublist rows := by
  exact (agentRows_sublist _ _).trans (windowRows_sublist rows now (minsOf pm))

theorem mem_selectStatsRows (rows : List StatsRow) (now : Int) (pm : Option Int)
    (ap : Option String) (r : StatsRow) (h : r ∈ selectStatsRows rows now pm ap) :
    r ∈ rows :=
  (selectStatsRows_sublist rows now pm ap).mem h

theorem insertStat_inv (db : StatsDb) (t : TelemetryRecord) (h : DbInv db) :
    DbInv (insertStat db t) := by
  obtain ⟨hle, hsort⟩ := h
  constructor
  · intro r hr
    simp only [insertStat, List.mem_append, List.mem_singleton] at hr
    rcases hr with hr | hr
    · simp only [insertStat]
      exact Nat.le_succ_of_le (hle r hr)
    · subst hr
      simp [insertStat, rowOfTelemetry]
  · simp only [insertStat]
    rw [List.pairwise_append]
    refine ⟨hsort, by simp, ?_⟩
    intro a ha b hb
    simp only [List.mem_singleton] at hb
    subst hb
    simp only [rowOfTelemetry]
    exact Nat.lt_succ_of_le (hle a ha)

/-! ## Claim theorems -/

/-- C1 (counterexample): the claim "exactly one telemetry record is appended
per forwarding-attempted request even when the upstream call fails" is false:
on an upstream connection error before any response, `proxyHandler` appends no
record (the only insert sits in the stream-end handler). -/
theorem C1_counterexample :
    ¬ (proxyRecords true 1748000000000 "coder" 120 37
        (UpstreamOutcome.failedNoResponse "connect ECONNREFUSED")).length = 1 := by
  decide

/-- C1 (amended): with persistence enabled, exactly one telemetry record is
appended per request whose relayed upstream response stream completes; when
the upstream call fails before the response stream completes (connection
error, abnormal termination, or timeout), no record is appended; the record's
`upstream_status` is `statusCode || 0`, so the 0 sentinel can only arise from
a received response with a falsy status code. -/
theorem C1_telemetry_once_on_completion (persist : Bool) (now : Nat) (agent : String)
    (inBytes dur st : Nat) (chunks : List Nat) (msg : String) :
    (proxyRecords true now agent inBytes dur (UpstreamOutcome.completed st chunks)).length = 1 ∧
    proxyRecords true now agent inBytes dur (UpstreamOutcome.completed st chunks)
      = [mkTelemetry now agent inBytes dur st chunks] ∧
    proxyRecords persist now agent inBytes dur (UpstreamOutcome.abortedMidStream st chunks msg) = [] ∧
    proxyRecords persist now agent inBytes dur (UpstreamOutcome.failedNoResponse msg) = [] ∧
    proxyRecords false now agent inBytes dur (UpstreamOutcome.completed st chunks) = [] := by
  refine ⟨?_, ?_, ?_, ?_, ?_⟩ <;> simp [proxyRecords]

theorem utf8EncodeChar_ne_nil (n : Nat) : utf8EncodeChar n ≠ [] := by
  rw [utf8EncodeChar]
  split
  · simp
  · split
    · simp
    · split
      · simp
      · simp

theorem utf8Bytes_eq_nil_iff (s : String) : utf8Bytes s = [] ↔ s = "" := by
  constructor
  · intro h
    cases s with
    | mk data =>
      cases data with
      | nil => rfl
      | cons c rest =>
        rw [utf8Bytes] at h
        simp only [utf8BytesList, List.append_eq_nil] at h
        exact absurd h.1 (utf8EncodeChar_ne_nil c.toNat)
  · intro h
    subst h
    rfl

/-- C2: for every valid inbound body (the UTF-8 encoding of a text `s`), the
byte sequence written to the upstream connection equals the byte sequence
received from the client, and `inBytes` is the exact byte length of the body
as received. -/
theorem C2_body_forwarded_byte_identical (s : String) :
    upstreamWritten (bodyOf (some (rawBodyOf s))) = utf8Bytes s ∧
    inBytesOf (bodyOf (some (rawBodyOf s))) = (utf8Bytes s).length := by
  by_cases hs : s = ""
  · subst hs
    refine ⟨?_, ?_⟩ <;> rfl
  · have hne : (utf8Bytes s).length ≠ 0 := by
      intro hlen
      exact hs ((utf8Bytes_eq_nil_iff s).mp (List.length_eq_zero.mp hlen))
    rw [rawBodyOf, if_pos hne]
    rw [bodyOf]
    refine ⟨?_, rfl⟩
    rw [upstreamWritten, if_neg hs]

/-- C3: every telemetry record carries `est_tokens = in_bytes / 4` (floor
division), with `in_bytes` computed from the body's byte length, and the
estimate takes the expected values at 0, 1, 2, 3, 4 and 400000 bytes. -/
theorem C3_estimated_tokens_quarter (s : String) (now : Nat) (agent : String)
    (dur st : Nat) (chunks : List Nat) :
    (mkTelemetry now agent (inBytesOf s) dur st chunks).est_tokens
      = (mkTelemetry now agent (inBytesOf s) dur st chunks).in_bytes / 4 ∧
    (mkTelemetry now agent (inBytesOf s) dur st chunks).in_bytes = (utf8Bytes s).length ∧
    estTokensOf 0 = 0 ∧ estTokensOf 1 = 0 ∧ estTokensOf 2 = 0 ∧
    estTokensOf 3 = 0 ∧ estTokensOf 4 = 1 ∧ estTokensOf 400000 = 100000 := by
  refine ⟨rfl, rfl, ?_, ?_, ?_, ?_, ?_, ?_⟩ <;> decide

theorem classifyValue_cases (a : String) :
    classifyValue a = "manager" ∨ classifyValue a = "coder" ∨ classifyValue a = "tester" := by
  rw [classifyValue]
  split
  · next h =>
    rcases h with h | h | h
    · subst h; right; left; rfl
    · subst h; right; right; rfl
    · subst h; left; rfl
  · left; rfl

/-- C4: the request classifier is a total function into the closed tag set
`{manager, coder, tester}`; the lowercased `agent` query value is kept exactly
when it is one of the three tags and anything else yields the default
`manager`; the five concrete query examples classify as the claim states. -/
theorem C4_classifier_closed_set :
    (∀ url : String, classifyAgent url = "manager" ∨ classifyAgent url = "coder" ∨
      classifyAgent url = "tester") ∧
    (∀ a : String, classifyValue a =
      if a = "coder" ∨ a = "tester" ∨ a = "manager" then a else "manager") ∧
    classifyAgent "/v1/chat/completions?agent=CODER" = "coder" ∧
    classifyAgent "/v1/chat/completions?agent=coder" = "coder" ∧
    classifyAgent "/v1/chat/completions?agent=coder&x=1" = "coder" ∧
    classifyAgent "/v1/chat/completions?agent=unknown" = "manager" ∧
    classifyAgent "/v1/chat/completions" = "manager" := by
  refine ⟨?_, fun a => rfl, by decide, by decide, by decide, by decide, by decide⟩
  intro url
  rw [classifyAgent]
  rcases h : splitOnChar '?' url.data with _ | ⟨g, _ | ⟨g2, gs⟩⟩
  · left; rfl
  · left; rfl
  · exact classifyValue_cases _

/-- C5 (counterexample): the claim "an upstream error or abnormal termination
always yields a 502 to the caller" is false: when the upstream failure occurs
after response headers were relayed, the mirrored upstream status (here 200)
stands. -/
theorem C5_counterexample :
    (proxyClientResult (UpstreamOutcome.abortedMidStream 200 [17] "socket hang up")).status
      ≠ 502 := by
  decide

/-- C5 (amended): on an upstream timeout the outbound request is destroyed and
surfaces as a no-response failure with the timeout message; any upstream
failure before response headers are relayed yields status 502 with the
structured JSON error body carrying "Bad Gateway" and the failure message.
A failure after the headers were relayed leaves the mirrored upstream status
in place and appends no error body: the error handler throws while setting
the JSON content type on an already-sent response, so the caller only sees
the chunks relayed so far. -/
theorem C5_gateway_failure_behaviour (msg : String) (st : Nat) (chunks : List Nat)
    (tmo : Nat) :
    proxyClientResult (UpstreamOutcome.failedNoResponse msg)
      = { status := 502, body := RespBody.jsonError "Bad Gateway" msg,
          handlerThrew := false } ∧
    (upstreamTimeoutHandler tmo).1 = true ∧
    (upstreamTimeoutHandler tmo).2
      = UpstreamOutcome.failedNoResponse (upstreamTimeoutMsg tmo) ∧
    proxyClientResult (UpstreamOutcome.abortedMidStream st chunks msg)
      = { status := if st = 0 then 502 else st, body := RespBody.stream chunks,
          handlerThrew := true } := by
  exact ⟨rfl, rfl, rfl, rfl⟩

/-- C6: for the row selection shared by `/stats` and `/stats/export`, a
positive `periodMinutes` value keeps exactly the records with
`ts ≥ now − N·60000`, while zero or negative values (and an omitted parameter,
which maps to 0) keep every record; both endpoints select rows through this
same window composed with the agent filter. -/
theorem C6_time_window_filter (rows : List StatsRow) (now mins : Int) (r : StatsRow) :
    (r ∈ windowRows rows now mins ↔
      r ∈ rows ∧ (0 < mins → now - mins * 60 * 1000 ≤ (r.ts : Int))) ∧
    windowRows rows now 0 = rows ∧
    windowRows rows now (-5) = rows ∧
    (∀ pm ap, selectStatsRows rows now pm ap
      = agentRows (windowRows rows now (minsOf pm)) (agentFilterOf ap)) ∧
    (∀ pm ap, statsEndpoint true rows now pm ap
      = (200, EndpointBody.summaryBody (minsOf pm) (agentFilterOf ap)
          (selectStatsRows rows now pm ap))) ∧
    (∀ pm ap, exportEndpoint true rows now pm ap
      = (200, EndpointBody.csv (exportChunks rows now pm ap))) := by
  refine ⟨?_, by rw [windowRows]; simp, by rw [windowRows]; simp, fun pm ap => rfl,
    fun pm ap => rfl, fun pm ap => rfl⟩
  rw [windowRows]
  split
  · next hpos =>
    rw [List.mem_filter]
    simp only [decide_eq_true_eq]
    constructor
    · exact fun ⟨h1, h2⟩ => ⟨h1, fun _ => h2⟩
    · exact fun ⟨h1, h2⟩ => ⟨h1, h2 hpos⟩
  · next hneg =>
    constructor
    · exact fun h => ⟨h, fun hpos => absurd hpos hneg⟩
    · exact fun ⟨h1, _⟩ => h1

/-- C6 witness: the window keeps a record it covers and the zero window keeps
everything, at concrete values. -/
theorem C6_witness :
    sampleRowA ∈ windowRows [sampleRowA] 90061200 5 ∧
    windowRows [sampleRowA] 90061200 0 = [sampleRowA] := by
  refine ⟨?_, (C6_time_window_filter [sampleRowA] 90061200 0 sampleRowA).2.1⟩
  exact ((C6_time_window_filter [sampleRowA] 90061200 5 sampleRowA).1).mpr
    ⟨by decide, fun _ => by decide⟩

/-- C7: the summarize query returns, per agent group over the rows matching
the optional window and agent filters, the row count, the sums of `in_bytes`
and `out_bytes`, and the average `duration_ms`; an agent with no matching row
has no group. -/
theorem C7_summarize_grouped_aggregates (rows : List StatsRow) (now : Int)
    (pm : Option Int) (ap : Option String) (a : String) :
    (statsSummary rows now pm ap a = none ↔
      (selectStatsRows rows now pm ap).filter (fun r => r.agent = a) = []) ∧
    ((selectStatsRows rows now pm ap).filter (fun r => r.agent = a) ≠ [] →
      statsSummary rows now pm ap a = some {
        agent := a,
        requests := ((selectStatsRows rows now pm ap).filter (fun r => r.agent = a)).length,
        sum_in := (((selectStatsRows rows now pm ap).filter (fun r => r.agent = a)).map
          (fun r => r.in_bytes)).sum,
        sum_out := (((selectStatsRows rows now pm ap).filter (fun r => r.agent = a)).map
          (fun r => r.out_bytes)).sum,
        avg_ms := ((((selectStatsRows rows now pm ap).filter (fun r => r.agent = a)).map
          (fun r => r.duration_ms)).sum : Rat) /
          (((selectStatsRows rows now pm ap).filter (fun r => r.agent = a)).length : Rat) }) := by
  constructor
  · rw [statsSummary, summaryFor]
    constructor
    · intro h
      by_contra hne
      rw [if_neg (fun hz => hne (List.length_eq_zero.mp hz))] at h
      exact Option.noConfusion h
    · intro h
      rw [if_pos (by rw [h]; rfl)]
  · intro h
    rw [statsSummary, summaryFor]
    rw [if_neg (fun hz => h (List.length_eq_zero.mp hz))]

/-- C7 witness: three records with `in_bytes` 100, 200, 300 for agent `coder`
summarize to requests = 3 and sum_in = 600 (with sum_out = 180 and an average
duration of 20 ms). -/
theorem C7_witness :
    statsSummary [sampleRowA, sampleRowB, sampleRowC] 0 none none "coder"
      = some { agent := "coder", requests := 3, sum_in := 600, sum_out := 180,
               avg_ms := 20 } := by
  rw [(C7_summarize_grouped_aggregates
    [sampleRowA, sampleRowB, sampleRowC] 0 none none "coder").2 (by decide)]
  norm_num [sampleRowA, sampleRowB, sampleRowC, selectStatsRows, windowRows,
    agentRows, agentFilterOf, minsOf]

/-- C8: the export output starts with the exact CSV header, contains one data
row per selected record in stored (ascending id) order — an order every
`insertStat` append preserves — and each data row parses back to the original
record with the timestamp recovered to the millisecond from its ISO-8601
rendering. -/
theorem C8_export_format_roundtrip (db : StatsDb) (now : Int) (pm : Option Int)
    (ap : Option String) (hinv : DbInv db)
    (hts : ∀ r ∈ db.rows, r.ts < 253402300800000)
    (hag : ∀ r ∈ db.rows, ',' ∉ r.agent.data) :
    exportChunks db.rows now pm ap
      = csvHeader :: (selectStatsRows db.rows now pm ap).map (fun r => renderRow r ++ "\n") ∧
    (selectStatsRows db.rows now pm ap).Pairwise (fun x y => x.id < y.id) ∧
    (∀ r ∈ selectStatsRows db.rows now pm ap, parseRow (renderRow r) = some r) ∧
    (∀ t, DbInv (insertStat db t)) := by
  refine ⟨rfl, ?_, ?_, fun t => insertStat_inv db t hinv⟩
  · exact hinv.2.sublist (selectStatsRows_sublist db.rows now pm ap)
  · intro r hr
    have hmem := mem_selectStatsRows db.rows now pm ap r hr
    exact parseRow_renderRow r (hts r hmem) (hag r hmem)

/-- C8 witness: a two-row store exports header-first in id order and the first
row parses back to the original record. -/
theorem C8_witness :
    DbInv sampleDb ∧
    exportChunks sampleDb.rows 0 none none
      = [csvHeader, renderRow sampleRowA ++ "\n", renderRow sampleRowB ++ "\n"] ∧
    parseRow (renderRow sampleRowA) = some sampleRowA := by
  have hinv : DbInv sampleDb := by
    constructor
    · intro r hr
      simp only [sampleDb, List.mem_cons, List.not_mem_nil, or_false] at hr
      rcases hr with h | h <;> subst h <;> decide
    · simp [sampleDb, List.pairwise_cons]
      decide
  refine ⟨hinv, ?_, ?_⟩
  · exact (C8_export_format_roundtrip sampleDb 0 none none hinv
      (by intro r hr; simp only [sampleDb, List.mem_cons, List.not_mem_nil, or_false] at hr
          rcases hr with h | h <;> subst h <;> decide)
      (by intro r hr; simp only [sampleDb, List.mem_cons, List.not_mem_nil, or_false] at hr
          rcases hr with h | h <;> subst h <;> decide)).1
  · exact (C8_export_format_roundtrip sampleDb 0 none none hinv
      (by intro r hr; simp only [sampleDb, List.mem_cons, List.not_mem_nil, or_false] at hr
          rcases hr with h | h <;> subst h <;> decide)
      (by intro r hr; simp only [sampleDb, List.mem_cons, List.not_mem_nil, or_false] at hr
          rcases hr with h | h <;> subst h <;> decide)).2.2.1
      sampleRowA (by decide)

theorem strToLower_ne_empty (v : String) (h : v ≠ "") : strToLower v ≠ "" := by
  intro heq
  apply h
  cases v with
  | mk data =>
    cases data with
    | nil => rfl
    | cons c cs =>
      rw [strToLower] at heq
      have hdata := congrArg String.data heq
      simp at hdata

/-- C9: the reporting endpoints do not normalize the agent filter to the
closed tag set: a non-empty agent value is lowercased and used as a literal
equality filter, so a value outside `{manager, coder, tester}` selects no
rows (every stored row carries a classified agent) and the summary and export
come back empty — unlike the request classifier, which maps the same value to
the default `manager`. -/
theorem C9_reporting_agent_filter_literal (v : String) (rows : List StatsRow)
    (now : Int) (pm : Option Int) (hne : v ≠ "")
    (hout : ¬(strToLower v = "manager" ∨ strToLower v = "coder" ∨ strToLower v = "tester"))
    (hrows : ∀ r ∈ rows, r.agent = "manager" ∨ r.agent = "coder" ∨ r.agent = "tester") :
    selectStatsRows rows now pm (some v)
      = (windowRows rows now (minsOf pm)).filter (fun r => r.agent = strToLower v) ∧
    selectStatsRows rows now pm (some v) = [] ∧
    (∀ a, statsSummary rows now pm (some v) a = none) ∧
    exportChunks rows now pm (some v) = [csvHeader] ∧
    classifyValue (strToLower v) = "manager" := by
  have hlow : agentFilterOf (some v) = strToLower v := by
    rw [agentFilterOf, if_neg hne]
  have hsel : selectStatsRows rows now pm (some v)
      = (windowRows rows now (minsOf pm)).filter (fun r => r.agent = strToLower v) := by
    rw [selectStatsRows, hlow, agentRows, if_pos (strToLower_ne_empty v hne)]
  have hnil : (windowRows rows now (minsOf pm)).filter (fun r => r.agent = strToLower v)
      = [] := by
    rw [List.filter_eq_nil_iff]
    intro r hrmem
    have hag := hrows r ((windowRows_sublist rows now (minsOf pm)).mem hrmem)
    simp only [decide_eq_true_eq]
    intro heq
    rcases hag with h | h | h
    · rw [h] at heq; exact hout (Or.inl heq.symm)
    · rw [h] at heq; exact hout (Or.inr (Or.inl heq.symm))
    · rw [h] at heq; exact hout (Or.inr (Or.inr heq.symm))
  have hempty : selectStatsRows rows now pm (some v) = [] := by rw [hsel, hnil]
  refine ⟨hsel, hempty, ?_, ?_, ?_⟩
  · intro a
    rw [statsSummary, hempty]
    rfl
  · rw [exportChunks, hempty]
    rfl
  · rw [classifyValue, if_neg]
    intro hmem
    rcases hmem with h | h | h
    · exact hout (Or.inr (Or.inl h))
    · exact hout (Or.inr (Or.inr h))
    · exact hout (Or.inl h)

/-- C9 witness: at the concrete filter value `unknown` against a store holding
one `manager` record, the selection, summary and export are all empty while
the classifier would map the value to `manager`. -/
theorem C9_witness :
    selectStatsRows [sampleRowM] 0 none (some "unknown") = [] ∧
    statsSummary [sampleRowM] 0 none (some "unknown") "manager" = none ∧
    exportChunks [sampleRowM] 0 none (some "unknown") = [csvHeader] ∧
    classifyValue (strToLower "unknown") = "manager" := by
  have h := C9_reporting_agent_filter_literal "unknown" [sampleRowM] 0 none
    (by decide) (by decide)
    (by intro r hr
        simp only [List.mem_cons, List.not_mem_nil, or_false] at hr
        subst hr
        left
        rfl)
  exact ⟨h.2.1, h.2.2.1 "manager", h.2.2.2.1, h.2.2.2.2⟩

/-- C10: with persistence disabled, `GET /stats` answers with HTTP 200 and the
JSON error body `{error: "stats persistence disabled"}` while
`GET /stats/export` answers with HTTP 400 and the same error body. -/
theorem C10_disabled_statuses (rows : List StatsRow) (now : Int) (pm : Option Int)
    (ap : Option String) :
    statsEndpoint false rows now pm ap
      = (200, EndpointBody.jsonError "stats persistence disabled") ∧
    exportEndpoint false rows now pm ap
      = (400, EndpointBody.jsonError "stats persistence disabled") ∧
    (statsEndpoint false rows now pm ap).2 = (exportEndpoint false rows now pm ap).2 := by
  exact ⟨rfl, rfl, rfl⟩

end AiProxy
